import Mathlib

/-!
Shallow embedding of the News-In-kB ingestion pipeline
(src/services/rssFetcher.js, src/services/scraper.js,
src/services/summarizer.js, src/jobs/newsJob.js) and proofs about
the spec claims.  Strings are modelled as `List Char` where character
level regex work is needed; JS whitespace is modelled by the common
ASCII whitespace set.
-/

set_option maxRecDepth 4000

namespace NewsInKB

/-! ## Character helpers (JS `\s`, `String.prototype.trim`) -/

/-- ASCII whitespace characters recognised by the JS `\s` class and `trim`
(space, tab, newline, carriage return, vertical tab, form feed). -/
def isJsSpace (c : Char) : Bool :=
  c == ' ' || c == '\t' || c == '\n' || c == '\r' || c == '\x0b' || c == '\x0c'

/-- Drop the longest run of leading whitespace (JS `^\s*`). -/
def dropWs : List Char → List Char
  | [] => []
  | c :: cs => if isJsSpace c then dropWs cs else c :: cs

/-- JS `String.prototype.trim`: drop whitespace from both ends. -/
def jsTrim (cs : List Char) : List Char :=
  dropWs ((dropWs cs.reverse).reverse)

/-- Apostrophe character, kept out of string literals. -/
def apos : Char := Char.ofNat 39

/-! ## summarizer.js `clean` — the two lead-in regexes

`clean` applies `replace(/^\s*(here'?s|this is)\s+(the\s+)?summary[:\-]\s*/i, '')`
then `replace(/^\s*summary[:\-]\s*/i, '')` then `trim()`.  Each matcher below
returns the remainder after the matched leading text, or `none` when the
regex does not match (so `replace` leaves the string unchanged).  Greedy
whitespace consumption is faithful because every token following a `\s*` or
`\s+` in these regexes begins with a non-whitespace character, so the JS
backtracking engine never has to give whitespace back. -/

/-- Match a literal (given in lowercase) case-insensitively, returning the
remainder. -/
def matchLit : List Char → List Char → Option (List Char)
  | [], cs => some cs
  | _ :: _, [] => none
  | l :: ls, c :: cs => if c.toLower == l then matchLit ls cs else none

/-- Match `\s+` (one or more whitespace), returning the remainder. -/
def matchWs1 : List Char → Option (List Char)
  | [] => none
  | c :: cs => if isJsSpace c then some (dropWs cs) else none

/-- Match `summary[:\-]\s*`, returning the remainder. -/
def matchSummaryColon (cs : List Char) : Option (List Char) := do
  let cs1 ← matchLit "summary".data cs
  match cs1 with
  | [] => none
  | c :: rest => if c == ':' || c == '-' then some (dropWs rest) else none

/-- Match the alternation `(here'?s|this is)` (first regex), returning the
remainder.  The `'?` optional group is tried with the apostrophe first, as
the JS engine does. -/
def matchIntro (cs : List Char) : Option (List Char) :=
  (do
    let cs1 ← matchLit "here".data cs
    (do
      let cs2 ← matchLit [apos] cs1
      matchLit "s".data cs2) <|> matchLit "s".data cs1)
  <|> matchLit "this is".data cs

/-- Match `(the\s+)?summary[:\-]\s*`: the optional group is tried first and
dropped on failure, as the JS engine backtracks. -/
def matchTheSummary (cs : List Char) : Option (List Char) :=
  (do
    let cs1 ← matchLit "the".data cs
    let cs2 ← matchWs1 cs1
    matchSummaryColon cs2)
  <|> matchSummaryColon cs

/-- Full match of `/^\s*(here'?s|this is)\s+(the\s+)?summary[:\-]\s*/i`. -/
def matchLeadIn1 (cs : List Char) : Option (List Char) := do
  let cs1 ← matchIntro (dropWs cs)
  let cs2 ← matchWs1 cs1
  matchTheSummary cs2

/-- Full match of `/^\s*summary[:\-]\s*/i`. -/
def matchLeadIn2 (cs : List Char) : Option (List Char) :=
  matchSummaryColon (dropWs cs)

/-- First `replace` of `clean`: strip the long lead-in if it matches. -/
def stripLeadIn1 (cs : List Char) : List Char := (matchLeadIn1 cs).getD cs

/-- Second `replace` of `clean`: strip a bare `summary:` lead-in if it
matches. -/
def stripLeadIn2 (cs : List Char) : List Char := (matchLeadIn2 cs).getD cs

/-- summarizer.js `clean`: two anchored regex replaces, then `trim()`. -/
def clean (text : List Char) : List Char :=
  jsTrim (stripLeadIn2 (stripLeadIn1 text))

/-- The literal text "Here's the summary: " (apostrophe spliced in). -/
def heresTheSummary : List Char :=
  "Here".data ++ [apos] ++ "s the summary: ".data

/-! ## summarizer.js — error classification and the rotation loop -/

/-- Containment of a literal in the (already lowercased) message, modelling
JS `String.prototype.includes`. -/
def includesSub (needle hay : List Char) : Bool :=
  decide (needle <:+: hay)

/-- A thrown provider error as inspected by `isRateLimit` / `isRetryable`:
an optional HTTP status (`err?.status ?? err?.response?.status`) and the
message string.  The code lowercases the message before testing. -/
structure JsError where
  status : Option Int
  message : List Char

/-- Lowercased message, JS `String(err?.message || '').toLowerCase()`. -/
def JsError.msgLower (e : JsError) : List Char := e.message.map Char.toLower

/-- summarizer.js `isRateLimit`: HTTP 429 or a rate/quota/throughput
message. -/
def isRateLimit (e : JsError) : Bool :=
  e.status == some 429
    || includesSub "rate limit".data e.msgLower
    || includesSub "quota".data e.msgLower
    || includesSub "tpm".data e.msgLower

/-- summarizer.js `isRetryable`: rate limit, 5xx status, timeout, temporary
unavailability, or overload.  An absent status compares false in JS
(`undefined >= 500` is false). -/
def isRetryable (e : JsError) : Bool :=
  isRateLimit e
    || (match e.status with
        | some s => decide (500 ≤ s ∧ s < 600)
        | none => false)
    || includesSub "timeout".data e.msgLower
    || includesSub "temporar".data e.msgLower
    || includesSub "overload".data e.msgLower

/-- Result of one provider call (`client.chat.completions.create` inside
`callOnce`): either the raw completion text
(`res.choices?.[0]?.message?.content || ''`, possibly empty) or a thrown
error.  The n-th call of a `summarizeContent` invocation is `oracle n`;
`callOnce` itself then applies `clean` to a successful response. -/
def Oracle := Nat → Except JsError (List Char)

/-- MODELS list construction from the `MODEL_LIST` environment variable:
split on commas, trim, drop empties, and fall back to the single default
model when nothing remains. -/
def mkModels (envRaw : String) : List String :=
  let l := ((envRaw.splitOn ",").map String.trim).filter (fun s => s ≠ "")
  if l.isEmpty then ["llama-3.1-8b-instant"] else l

/-- Observable behaviour of one `summarizeContent` call: the returned
string and the models used by the provider calls, in order. -/
structure SummarizeRun where
  result : List Char
  attempts : List String
  deriving Repr, DecidableEq

/-- The `for (turns = 0; turns < MODELS.length * 2; turns++)` loop of
`summarizeContent`.  `fuel` is the number of turns left, `idx` the rotation
cursor, `n` the index of the next provider call, `acc` the models attempted
so far.  Empty cleaned output and rate-limit errors hop to the next model;
other retryable errors sleep 400ms (no observable trace here) and hop;
a non-retryable error breaks out and the function returns the empty
string. -/
def summarizeGo (oracle : Oracle) (models : List String) :
    Nat → Nat → Nat → List String → SummarizeRun
  | 0, _, _, acc => ⟨[], acc⟩
  | fuel + 1, idx, n, acc =>
    let model := (models[idx]?).getD ""
    let acc' := acc ++ [model]
    match oracle n with
    | .ok raw =>
      let out := clean raw
      if out ≠ [] then ⟨out, acc'⟩
      else summarizeGo oracle models fuel ((idx + 1) % models.length) (n + 1) acc'
    | .error e =>
      if isRateLimit e then
        summarizeGo oracle models fuel ((idx + 1) % models.length) (n + 1) acc'
      else if isRetryable e then
        summarizeGo oracle models fuel ((idx + 1) % models.length) (n + 1) acc'
      else ⟨[], acc'⟩

/-- summarizer.js `summarizeContent`: inputs shorter than 40 characters are
rejected with no provider call (`!text` is subsumed: the empty string has
length 0); otherwise run the bounded rotation loop starting at cursor 0. -/
def summarizeContent (oracle : Oracle) (models : List String)
    (text : List Char) : SummarizeRun :=
  if text.length < 40 then ⟨[], []⟩
  else summarizeGo oracle models (models.length * 2) 0 0 []

/-! ## newsJob.js — per-candidate pipeline and run statistics -/

/-- A candidate produced by the Feed Sampler.  Missing link or title is the
empty string (JS falsy check `!article?.link || !article?.title`). -/
structure Candidate where
  title : String
  link : String
  pubDate : Option Int
  source : String
  deriving Repr, DecidableEq

/-- Skip reasons of `handleOneArticle`. -/
inductive Reason where
  | missing_fields
  | duplicate
  | short_content
  | bad_summary
  | duplicate_race
  deriving Repr, DecidableEq

/-- Terminal outcome of one candidate: exactly one of the three shapes
`{saved: true}`, `{skipped: reason}`, `{error: true}`. -/
inductive Outcome where
  | saved
  | skipped (r : Reason)
  | error
  deriving Repr, DecidableEq

/-- Result of the `Article.findOne({link})` duplicate pre-check: a hit, a
miss, or a thrown database error (caught by the outer try/catch). -/
inductive DupCheck where
  | found
  | notFound
  | threw
  deriving Repr, DecidableEq

/-- Result of the `Article.create` persistence attempt: success, or a
thrown error carrying an optional numeric `code` (Mongo duplicate-key
errors carry `code === 11000`). -/
inductive PersistResult where
  | ok
  | failed (code : Option Int)
  deriving Repr, DecidableEq

/-- The resolved results of the awaited collaborator calls made while
processing one candidate: the duplicate pre-check, the scraper result
(`extractContentFromLink` never throws), the summarizer result
(`summarizeContent` never throws), and the persistence attempt.  Thrown
collaborator errors are Error objects, so the outer catch never itself
throws on `err.message`. -/
structure CandidateEnv where
  dupCheck : DupCheck
  content : List Char
  image : List Char
  summary : List Char
  persist : PersistResult
  deriving Repr, DecidableEq

/-- newsJob.js tunable `MIN_CONTENT_LEN`. -/
def MIN_CONTENT_LEN : Nat := 200

/-- newsJob.js tunable `CONCURRENCY`. -/
def CONCURRENCY : Nat := 5

/-- newsJob.js `handleOneArticle`: guards, duplicate pre-check, scrape,
content gate, summarize, summary gate, persistence with duplicate-race
remapping, outer catch-all producing `error`.  The JS gates
`!content || content.length < MIN_CONTENT_LEN` and
`!summary || summary.length < 10` are subsumed by the length tests since
an empty string has length 0. -/
def handleOneArticle (env : CandidateEnv) (a : Candidate) : Outcome :=
  if a.link = "" ∨ a.title = "" then .skipped .missing_fields
  else
    match env.dupCheck with
    | .threw => .error
    | .found => .skipped .duplicate
    | .notFound =>
      if env.content.length < MIN_CONTENT_LEN then .skipped .short_content
      else if env.summary.length < 10 then .skipped .bad_summary
      else
        match env.persist with
        | .ok => .saved
        | .failed code =>
          if code = some 11000 then .skipped .duplicate_race else .error

/-- Per-reason skip counters (the `acc.skipped` object of the reduce). -/
structure SkipCounts where
  missing_fields : Nat
  duplicate : Nat
  short_content : Nat
  bad_summary : Nat
  duplicate_race : Nat
  deriving Repr, DecidableEq

/-- All-zero skip counters. -/
def SkipCounts.zero : SkipCounts := ⟨0, 0, 0, 0, 0⟩

/-- Increment the counter of one reason
(`acc.skipped[r] = (acc.skipped[r] || 0) + 1`). -/
def SkipCounts.bump (s : SkipCounts) : Reason → SkipCounts
  | .missing_fields => { s with missing_fields := s.missing_fields + 1 }
  | .duplicate => { s with duplicate := s.duplicate + 1 }
  | .short_content => { s with short_content := s.short_content + 1 }
  | .bad_summary => { s with bad_summary := s.bad_summary + 1 }
  | .duplicate_race => { s with duplicate_race := s.duplicate_race + 1 }

/-- Sum of all per-reason skip counts. -/
def SkipCounts.total (s : SkipCounts) : Nat :=
  s.missing_fields + s.duplicate + s.short_content + s.bad_summary
    + s.duplicate_race

/-- The aggregated run statistics of the final reduce. -/
structure RunStats where
  saved : Nat
  errors : Nat
  skipped : SkipCounts
  deriving Repr, DecidableEq

/-- One step of the reduce: exactly one branch fires per outcome. -/
def tally (acc : RunStats) : Outcome → RunStats
  | .saved => { acc with saved := acc.saved + 1 }
  | .skipped r => { acc with skipped := acc.skipped.bump r }
  | .error => { acc with errors := acc.errors + 1 }

/-- newsJob.js stats reduce over the settled worker results.  The reduce is
insensitive to the completion order in which `processWithConcurrency`
pushed the results, so the input-order list of outcomes is used. -/
def runStats (outs : List Outcome) : RunStats :=
  outs.foldl tally ⟨0, 0, SkipCounts.zero⟩

/-- Observable behaviour of one `fetchAndStoreNews` run: the JS return
value (always `undefined`, modelled `none`), the stats logged by the final
`console.log` (absent on the early empty-list exit), and whether the
`console.warn` fired. -/
structure RunResult where
  returned : Option RunStats
  logged : Option RunStats
  warned : Bool
  deriving Repr, DecidableEq

/-- The outcomes of a batch, one per candidate, each computed from that
candidate and its own collaborator environment. -/
def batchOutcomes (batch : List (Candidate × CandidateEnv)) : List Outcome :=
  batch.map fun p => handleOneArticle p.2 p.1

/-- newsJob.js `fetchAndStoreNews`: an empty candidate list warns and
returns immediately; otherwise every candidate is processed to a terminal
outcome, the stats are aggregated and logged.  Both paths of the JS
function return `undefined`. -/
def fetchAndStoreNews (batch : List (Candidate × CandidateEnv)) : RunResult :=
  if batch.isEmpty then ⟨none, none, true⟩
  else ⟨none, some (runStats (batchOutcomes batch)), false⟩

/-! ## newsJob.js `processWithConcurrency` — worker-pool step semantics

The promise machinery is modelled as a transition system over the number
of queued items, the number of in-flight workers, and whether the final
promise has resolved.  `start` is one iteration of the
`while (active < concurrency && queue.length)` body, `complete` is one
worker settling (the `finally` block decrementing `active`), and
`resolve` is the `if (queue.length === 0 && active === 0) resolve(results)`
check at the head of `next()`.  The relation admits every interleaving the
event loop can produce (and more); the safety claims proved below hold for
all of them. -/

/-- Pool scheduler state. -/
structure PoolState where
  queue : Nat
  active : Nat
  resolved : Bool
  deriving Repr, DecidableEq

/-- One scheduler transition, parameterised by the concurrency cap. -/
inductive PoolStep (cap : Nat) : PoolState → PoolState → Prop
  | start {q a} : a < cap → PoolStep cap ⟨q + 1, a, false⟩ ⟨q, a + 1, false⟩
  | complete {q a} : PoolStep cap ⟨q, a + 1, false⟩ ⟨q, a, false⟩
  | resolve : PoolStep cap ⟨0, 0, false⟩ ⟨0, 0, true⟩

/-- Initial state of a run over `n` candidates. -/
def poolInit (n : Nat) : PoolState := ⟨n, 0, false⟩

/-- Reachability of a pool state from the initial state. -/
def PoolReachable (cap n : Nat) (s : PoolState) : Prop :=
  Relation.ReflTransGen (PoolStep cap) (poolInit n) s

/-! ## rssFetcher.js — sampling, normalization, dedup, sort -/

/-- rssFetcher.js tunables. -/
def INITIAL_LIMIT : Nat := 100

/-- Number of items picked per feed in initial mode. -/
def INITIAL_PICK : Nat := 10

/-- Latest-item window in recurring mode. -/
def RECUR_LIMIT : Nat := 50

/-- Upper pick count in recurring mode (the code draws `3–4`). -/
def RECUR_PICK : Nat := 4

/-- One entry of a structured Atom-style link list. -/
structure LinkEntry where
  rel : Option String
  href : Option String
  deriving Repr, DecidableEq

/-- The shape of `item.link` as probed by `pickLink`: a plain string, a
list of link entries, or absent/other. -/
inductive LinkField where
  | str (s : String)
  | arr (l : List LinkEntry)
  | absent
  deriving Repr, DecidableEq

/-- A provider date field as seen after JS parsing: `none` when the field
is absent or falsy, `some none` when present but unparseable
(`new Date(val)` is Invalid Date), `some (some t)` when it parses to
timestamp `t`.  Date-string parsing itself is a JS library call and is
modelled by this pre-parsed shape. -/
def DateField := Option (Option Int)

/-- A parsed feed item as consumed by the sampler. -/
structure FeedItem where
  title : Option String
  link : LinkField
  guid : Option String
  isoDate : DateField
  pubDate : DateField
  published : DateField
  updated : DateField

/-- The `Array.isArray(item.link)` branch of `pickLink` (reached when the
link is not a plain string and the guid is absent or falsy): the
`rel === "alternate"` entry with a truthy href wins, else the first
entry's href, else the empty string. -/
def pickLinkArr (other : LinkField) : String :=
  match other with
  | .arr (e :: es) =>
    (match (e :: es).find? fun l =>
        l.rel = some "alternate" ∧ l.href.isSome ∧ l.href ≠ some "" with
     | some alt => alt.href.getD ""
     | none =>
       match e.href with
       | some h => h
       | none => "")
  | _ => ""

/-- rssFetcher.js `pickLink`: plain string link, else truthy string guid,
else the structured-link-list probe, else the empty string. -/
def pickLink (item : FeedItem) : String :=
  match item.link with
  | .str s => s
  | other =>
    match item.guid with
    | some g => if g ≠ "" then g else pickLinkArr other
    | none => pickLinkArr other

/-- rssFetcher.js `toDate` over the `item.isoDate || item.pubDate ||
item.published || item.updated` chain: the first present (truthy) field
wins; its parse result is the date or `null`. -/
def resolveDate (item : FeedItem) : Option Int :=
  match item.isoDate with
  | some p => p
  | none =>
    match item.pubDate with
    | some p => p
    | none =>
      match item.published with
      | some p => p
      | none =>
        match item.updated with
        | some p => p
        | none => none

/-- rssFetcher.js `SOURCE_MAP`: feed URL → human source label. -/
def SOURCE_MAP : List (String × String) :=
  [("https://feeds.feedburner.com/ndtvnews-top-stories", "NDTV"),
   ("https://www.thehindu.com/news/national/feeder/default.rss", "The Hindu"),
   ("https://news.abplive.com/home/feed", "ABP News"),
   ("https://www.indiatoday.in/rss/home", "India Today"),
   ("https://zeenews.india.com/rss/india-national-news.xml", "Zee News"),
   ("https://www.news18.com/rss/india.xml", "News18")]

/-- rssFetcher.js `normalizeItem`.  `siteFromURL` (title-cased hostname of
the feed URL, a `new URL` library call) is passed in as `site`. -/
def normalizeItem (site : String → String) (item : FeedItem) (url : String) :
    Candidate :=
  { title := (item.title).getD ""
    link := pickLink item
    pubDate := resolveDate item
    source := ((SOURCE_MAP.lookup url).getD (site url)) }

/-- rssFetcher.js `pickRandomItems`: the mutating-comparator
`arr.sort(() => 0.5 - Math.random())` always produces some permutation of
the array; that permutation is taken as the `shuffle` parameter.  The
empty-array guard mirrors `if (!Array.isArray(arr) || arr.length === 0)`. -/
def pickRandomItems (shuffle : List FeedItem → List FeedItem)
    (arr : List FeedItem) (count : Nat) : List FeedItem :=
  if arr.isEmpty then [] else (shuffle arr).take count

/-- Run mode of the pipeline. -/
inductive Mode where
  | initial
  | recurring
  deriving Repr, DecidableEq

/-- rssFetcher.js `fetchOne` after a successful `parser.parseURL`:
slice the latest window, pick a random sample, normalize.  In recurring
mode the pick count is `Math.floor(Math.random() * 2) + (RECUR_PICK - 1)`;
the uniform random bit `⌊2·Math.random()⌋ ∈ {0, 1}` is the `coin`
parameter. -/
def fetchOne (site : String → String)
    (shuffle : List FeedItem → List FeedItem) (coin : Fin 2)
    (items : List FeedItem) (url : String) (mode : Mode) : List Candidate :=
  match mode with
  | .initial =>
    (pickRandomItems shuffle (items.take INITIAL_LIMIT) INITIAL_PICK).map
      fun it => normalizeItem site it url
  | .recurring =>
    let howMany := coin.val + (RECUR_PICK - 1)
    (pickRandomItems shuffle (items.take RECUR_LIMIT) howMany).map
      fun it => normalizeItem site it url

/-- Dedup key of `fetchRSSArticles`:
`a.link || `${a.title}::${a.source}`` — the link when truthy (non-empty),
else the title/source pair. -/
def dedupKey (a : Candidate) : String :=
  if a.link = "" then a.title ++ "::" ++ a.source else a.link

/-- The dedup loop with its `seen` set, keeping first occurrences. -/
def dedupGo (seen : List String) : List Candidate → List Candidate
  | [] => []
  | a :: rest =>
    if seen.contains (dedupKey a) then dedupGo seen rest
    else a :: dedupGo (dedupKey a :: seen) rest

/-- rssFetcher.js dedup pass. -/
def dedupByKey (l : List Candidate) : List Candidate := dedupGo [] l

/-- Descending-order comparison used by the final sort: true when `a` may
come no later than `b`, i.e. the timestamp of `a` is at least that of `b`,
an absent timestamp counting as `-Infinity`.  Two absent timestamps
compare equal (`-Infinity - -Infinity` is `NaN`, which the JS sort treats
as 0). -/
def tsGe (a b : Candidate) : Bool :=
  match a.pubDate, b.pubDate with
  | none, none => true
  | none, some _ => false
  | some _, none => true
  | some x, some y => decide (y ≤ x)

/-- Strict version of `tsGe`: the timestamp of `a` is strictly greater. -/
def tsGt (a b : Candidate) : Bool :=
  match a.pubDate, b.pubDate with
  | none, _ => false
  | some _, none => true
  | some x, some y => decide (y < x)

/-- Stable descending insertion: a later element passes every earlier
element of strictly lower timestamp and lands after equal ones, which is
exactly the stable order `Array.prototype.sort` produces with the
comparator `(a, b) => db - da`. -/
def insertDesc (a : Candidate) : List Candidate → List Candidate
  | [] => [a]
  | b :: l => if tsGt a b then a :: b :: l else b :: insertDesc a l

/-- The full stable descending sort (elements inserted left to right). -/
def sortDesc (l : List Candidate) : List Candidate :=
  l.foldl (fun acc a => insertDesc a acc) []

/-- rssFetcher.js `fetchRSSArticles` after the per-feed loop: each list
entry is the result of `fetchOne` for one configured feed URL (`none`
models a thrown fetch/parse error, which is caught, logged and contributes
nothing).  The combined list is deduplicated and sorted newest first. -/
def fetchRSSArticles (perFeed : List (Option (List Candidate))) :
    List Candidate :=
  let all := perFeed.foldr (fun o acc => o.getD [] ++ acc) []
  sortDesc (dedupByKey all)

/-- The combined pre-dedup list (`allArticles` in the source). -/
def allArticles (perFeed : List (Option (List Candidate))) : List Candidate :=
  perFeed.foldr (fun o acc => o.getD [] ++ acc) []

/-! ## scraper.js — layered text extraction -/

/-- scraper.js `knownSelectors`, in priority order. -/
def knownSelectors : List String :=
  [".article__content", ".article-body", ".Normal", "div#content",
   "article", ".story-content", ".post-content", ".entry-content",
   "#storyBody"]

/-- A fetched page as probed by cheerio: for each selector that matches at
least one element (`$(sel).length` nonzero) the combined `$(sel).text()`,
the document-order paragraph texts, and the three image sources. -/
structure Page where
  bySel : List (String × List Char)
  paras : List (List Char)
  ogImage : Option String
  twImage : Option String
  firstImgSrc : Option String

/-- The known-selector loop: a matching selector overwrites `articleText`
with its trimmed text; the loop breaks at the first text longer than 200
characters, otherwise the last matching selector's text survives. -/
def selectorGo (p : Page) : List String → List Char → List Char
  | [], acc => acc
  | s :: rest, acc =>
    match p.bySel.lookup s with
    | none => selectorGo p rest acc
    | some t =>
      let t' := jsTrim t
      if t'.length > 200 then t' else selectorGo p rest t'

/-- The paragraph fallback: trim every `<p>` text, keep those longer than
50 characters, join with single spaces. -/
def fallbackParas (p : Page) : List Char :=
  List.intercalate [' ']
    ((p.paras.map jsTrim).filter fun s => s.length > 50)

/-- Case-insensitive literal pattern at the head of the text (`lit` given
in lowercase), returning the match length. -/
def litAt (lit : List Char) (cs : List Char) : Option Nat :=
  if (cs.take lit.length).map Char.toLower = lit then some lit.length
  else none

/-- The `/©\s?\d{4}/` pattern at the head of the text.  The optional
whitespace needs no backtracking: a whitespace character is never a
digit. -/
def copyrightAt (cs : List Char) : Option Nat :=
  match cs with
  | [] => none
  | c :: rest =>
    if c == '©' then
      match rest with
      | w :: r2 =>
        if isJsSpace w then
          if (r2.take 4).all Char.isDigit ∧ 4 ≤ r2.length then some 6 else none
        else
          if (rest.take 4).all Char.isDigit ∧ 4 ≤ rest.length then some 5
          else none
      | [] => none
    else none

/-- Scanner for the global regex replacement, structurally recursive on a
fuel argument so that it evaluates inside the kernel.  Each step consumes
at least one character, so fuel equal to the input length is always
enough; the fuel-exhausted branch is unreachable. -/
def replaceAllPatGo (pat : List Char → Option Nat) :
    Nat → List Char → List Char
  | _, [] => []
  | 0, l => l
  | fuel + 1, c :: cs =>
    match pat (c :: cs) with
    | some k => replaceAllPatGo pat fuel (cs.drop (k - 1))
    | none => c :: replaceAllPatGo pat fuel cs

/-- Global regex replacement by the empty string, as JS
`String.prototype.replace` with the `g` flag: scan left to right, remove
each non-overlapping match, never rescanning replaced junctions.  `pat`
returns the match length at the current position (at least 1). -/
def replaceAllPat (pat : List Char → Option Nat) (l : List Char) :
    List Char :=
  replaceAllPatGo pat l.length l

/-- scraper.js step 3, first part: strip the three boilerplate patterns,
in the order of the `boilerplatePatterns.forEach`. -/
def boilerStrip (t : List Char) : List Char :=
  replaceAllPat copyrightAt
    (replaceAllPat (litAt "advertisement".data)
      (replaceAllPat (litAt "share this article".data) t))

/-- The `replace(/\s+/g, ' ')` pass: each maximal whitespace run becomes a
single space.  `prevWs` records whether the previous character was part of
a run already replaced. -/
def collapseWsGo (prevWs : Bool) : List Char → List Char
  | [] => []
  | c :: cs =>
    if isJsSpace c then
      if prevWs then collapseWsGo true cs else ' ' :: collapseWsGo true cs
    else c :: collapseWsGo false cs

/-- Whitespace collapsing over a whole string. -/
def collapseWs (t : List Char) : List Char := collapseWsGo false t

/-- The full text pipeline of `extractContentFromLink` on a fetched page:
selector pass, paragraph fallback when the selector text is empty or
shorter than 200 characters, boilerplate strip, whitespace collapse,
trim. -/
def extractText (p : Page) : List Char :=
  let t1 := selectorGo p knownSelectors []
  let t2 := if t1 = [] ∨ t1.length < 200 then fallbackParas p else t1
  jsTrim (collapseWs (boilerStrip t2))

/-- Image selection: og:image, then twitter:image, then the first inline
image, each skipped when absent or empty, then resolved against the page
URL (`resolve` stands for the `new URL` library call; on resolution
failure the code falls back to the raw value, which `resolve` may also
model). -/
def pageImage (resolve : String → String) (p : Page) : String :=
  let raw :=
    match p.ogImage with
    | some s => if s ≠ "" then s else ""
    | none => ""
  let raw :=
    if raw ≠ "" then raw
    else
      match p.twImage with
      | some s => if s ≠ "" then s else ""
      | none => ""
  let raw :=
    if raw ≠ "" then raw
    else
      match p.firstImgSrc with
      | some s => if s ≠ "" then s else ""
      | none => ""
  resolve raw

/-- scraper.js `extractContentFromLink`: `none` models a failed request
(timeout, network error, non-2xx/3xx status), which the catch turns into
the empty result. -/
def extractContentFromLink (resolve : String → String) :
    Option Page → List Char × String
  | none => ([], "")
  | some p => (extractText p, pageImage resolve p)

/-! ## Helper lemmas — summarizer rotation loop -/

/-- Each loop turn makes exactly one provider call, so the attempt trace
grows by at most the remaining fuel. -/
lemma summarizeGo_attempts_le (oracle : Oracle) (models : List String) :
    ∀ fuel idx n acc,
      (summarizeGo oracle models fuel idx n acc).attempts.length
        ≤ acc.length + fuel := by
  intro fuel
  induction fuel with
  | zero => intro idx n acc; simp [summarizeGo]
  | succ f ih =>
    intro idx n acc
    simp only [summarizeGo]
    cases ho : oracle n with
    | ok raw =>
      by_cases hcl : clean raw = []
      · simpa [hcl] using
          (ih ((idx + 1) % models.length) (n + 1)
            (acc ++ [(models[idx]?).getD ""])).trans (by simp; omega)
      · simp [hcl]
    | error e =>
      by_cases hrl : isRateLimit e
      · simpa [hrl] using
          (ih ((idx + 1) % models.length) (n + 1)
            (acc ++ [(models[idx]?).getD ""])).trans (by simp; omega)
      · by_cases hre : isRetryable e
        · simpa [hrl, hre] using
            (ih ((idx + 1) % models.length) (n + 1)
              (acc ++ [(models[idx]?).getD ""])).trans (by simp; omega)
        · simp [hrl, hre]

/-- When every successful provider response cleans to the empty string,
the loop can only return the empty string. -/
lemma summarizeGo_result_empty (oracle : Oracle) (models : List String)
    (H : ∀ n raw, oracle n = .ok raw → clean raw = []) :
    ∀ fuel idx n acc,
      (summarizeGo oracle models fuel idx n acc).result = [] := by
  intro fuel
  induction fuel with
  | zero => intro idx n acc; simp [summarizeGo]
  | succ f ih =>
    intro idx n acc
    simp only [summarizeGo]
    cases ho : oracle n with
    | ok raw => simp [H n raw ho, ih]
    | error e =>
      by_cases hrl : isRateLimit e
      · simp [hrl, ih]
      · by_cases hre : isRetryable e
        · simp [hrl, hre, ih]
        · simp [hrl, hre]

/-- The attempt trace extends the accumulator. -/
lemma summarizeGo_attempts_shape (oracle : Oracle) (models : List String) :
    ∀ fuel idx n acc, ∃ rest,
      (summarizeGo oracle models fuel idx n acc).attempts = acc ++ rest := by
  intro fuel
  induction fuel with
  | zero => intro idx n acc; exact ⟨[], by simp [summarizeGo]⟩
  | succ f ih =>
    intro idx n acc
    simp only [summarizeGo]
    cases ho : oracle n with
    | ok raw =>
      by_cases hcl : clean raw = []
      · obtain ⟨r, hr⟩ := ih ((idx + 1) % models.length) (n + 1)
          (acc ++ [(models[idx]?).getD ""])
        exact ⟨(models[idx]?).getD "" :: r, by simp [hcl, hr]⟩
      · exact ⟨[(models[idx]?).getD ""], by simp [hcl]⟩
    | error e =>
      by_cases hrl : isRateLimit e
      · obtain ⟨r, hr⟩ := ih ((idx + 1) % models.length) (n + 1)
          (acc ++ [(models[idx]?).getD ""])
        exact ⟨(models[idx]?).getD "" :: r, by simp [hrl, hr]⟩
      · by_cases hre : isRetryable e
        · obtain ⟨r, hr⟩ := ih ((idx + 1) % models.length) (n + 1)
            (acc ++ [(models[idx]?).getD ""])
          exact ⟨(models[idx]?).getD "" :: r, by simp [hrl, hre, hr]⟩
        · exact ⟨[(models[idx]?).getD ""], by simp [hrl, hre]⟩

/-- With fuel available, the first provider call of the loop uses the
model at the current cursor. -/
lemma summarizeGo_head (oracle : Oracle) (models : List String)
    (fuel idx n : Nat) (hf : 1 ≤ fuel) :
    (summarizeGo oracle models fuel idx n []).attempts.head?
      = some ((models[idx]?).getD "") := by
  cases fuel with
  | zero => omega
  | succ f =>
    simp only [summarizeGo]
    cases ho : oracle n with
    | ok raw =>
      by_cases hcl : clean raw = []
      · obtain ⟨r, hr⟩ := summarizeGo_attempts_shape oracle models f
          ((idx + 1) % models.length) (n + 1) [(models[idx]?).getD ""]
        simp [hcl, hr]
      · simp [hcl]
    | error e =>
      by_cases hrl : isRateLimit e
      · obtain ⟨r, hr⟩ := summarizeGo_attempts_shape oracle models f
          ((idx + 1) % models.length) (n + 1) [(models[idx]?).getD ""]
        simp [hrl, hr]
      · by_cases hre : isRetryable e
        · obtain ⟨r, hr⟩ := summarizeGo_attempts_shape oracle models f
            ((idx + 1) % models.length) (n + 1) [(models[idx]?).getD ""]
          simp [hrl, hre, hr]
        · simp [hrl, hre]

/-! ## Shared concrete examples (used by witnesses) -/

/-- A 40-character input text. -/
def exText40 : List Char := "0123456789012345678901234567890123456789".data

/-- A rate-limit error (HTTP 429). -/
def exRateLimitErr : JsError := ⟨some 429, []⟩

/-- A provider that rate-limits every call. -/
def exRlOracle : Oracle := fun _ => .error exRateLimitErr

/-! ## Claim theorems — Summarizer -/

/-- C4: `summarize` makes at most 2 × N provider attempts for N configured
models, returns the empty string when no attempt in the budget yields a
non-empty cleaned summary, and rejects inputs shorter than 40 characters
immediately with an empty result and zero provider attempts. -/
theorem c4_summarize_bounded (oracle : Oracle) (models : List String)
    (text : List Char) :
    (summarizeContent oracle models text).attempts.length ≤ 2 * models.length
    ∧ ((∀ n raw, oracle n = .ok raw → clean raw = []) →
        (summarizeContent oracle models text).result = [])
    ∧ (text.length < 40 →
        (summarizeContent oracle models text).result = []
          ∧ (summarizeContent oracle models text).attempts = []) := by
  unfold summarizeContent
  by_cases h : text.length < 40
  · simp [h]
  · simp [h]
    constructor
    · simpa [Nat.mul_comm] using
        summarizeGo_attempts_le oracle models (models.length * 2) 0 0 []
    · intro H
      exact summarizeGo_result_empty oracle models H (models.length * 2) 0 0 []

/-- Witness for C4 at a concrete always-rate-limited provider. -/
theorem c4_witness :
    (summarizeContent exRlOracle ["m1", "m2"] exText40).attempts.length
        ≤ 2 * (["m1", "m2"] : List String).length
    ∧ (summarizeContent exRlOracle ["m1", "m2"] exText40).result = []
    ∧ (summarizeContent exRlOracle ["m1", "m2"] "x".data).result = []
    ∧ (summarizeContent exRlOracle ["m1", "m2"] "x".data).attempts = [] := by
  refine ⟨(c4_summarize_bounded exRlOracle ["m1", "m2"] exText40).1,
    (c4_summarize_bounded exRlOracle ["m1", "m2"] exText40).2.1 ?_,
    ((c4_summarize_bounded exRlOracle ["m1", "m2"] "x".data).2.2 (by decide)).1,
    ((c4_summarize_bounded exRlOracle ["m1", "m2"] "x".data).2.2 (by decide)).2⟩
  intro n raw h
  simp [exRlOracle] at h

/-- C9 counterexample: cleaning the raw completion
"Here's the summary: Summary: hi" yields "hi", not "Summary: hi" — the
second lead-in regex and the final trim act on X as well, so the cleanup
does not return X verbatim for every X. -/
theorem c9_counterexample :
    ¬ clean (heresTheSummary ++ "Summary: hi".data) = "Summary: hi".data := by
  decide

/-- C9 (amended): cleaning "Here's the summary: X" yields exactly X
provided X carries no surrounding whitespace and does not itself begin
with a `summary[:-]` lead-in; in general the result is X with such a
lead-in stripped and whitespace trimmed. -/
theorem c9_clean_of_heres (X : List Char)
    (h1 : dropWs X = X) (h2 : jsTrim X = X)
    (h3 : matchSummaryColon X = none) :
    clean (heresTheSummary ++ X) = X := by
  have hm : matchLeadIn1 (heresTheSummary ++ X) = some (dropWs X) := rfl
  simp only [clean, stripLeadIn1, stripLeadIn2, matchLeadIn2, hm,
    Option.getD_some, h1, h3, Option.getD_none]
  exact h2

/-- Witness for C9 (amended) at X = "hi". -/
theorem c9_witness : clean (heresTheSummary ++ "hi".data) = "hi".data :=
  c9_clean_of_heres "hi".data (by decide) (by decide) (by decide)

/-- C10: the rotation cursor is local to each `summarize` call — for every
call (any provider behaviour, any input long enough to be summarized), the
first provider attempt uses the first configured model, so no rotation
state carries over between calls. -/
theorem c10_rotation_local (oracle : Oracle) (models : List String)
    (text : List Char) (hm : models ≠ []) (ht : 40 ≤ text.length) :
    (summarizeContent oracle models text).attempts.head?
      = some ((models[0]?).getD "") := by
  unfold summarizeContent
  have h : ¬ text.length < 40 := by omega
  simp only [if_neg h]
  refine summarizeGo_head oracle models (models.length * 2) 0 0 ?_
  have : 0 < models.length := List.length_pos.mpr hm
  omega

/-- Witness for C10 at a concrete provider and text. -/
theorem c10_witness :
    (summarizeContent exRlOracle ["m1", "m2"] exText40).attempts.head?
      = some (((["m1", "m2"] : List String)[0]?).getD "") :=
  c10_rotation_local exRlOracle ["m1", "m2"] exText40 (by decide) (by decide)

/-! ## Helper lemmas — run statistics -/

/-- Each skip bump adds exactly one to the skip total. -/
lemma SkipCounts.total_bump (s : SkipCounts) (r : Reason) :
    (s.bump r).total = s.total + 1 := by
  cases r <;> simp [SkipCounts.bump, SkipCounts.total] <;> omega

/-- The reduce adds exactly one outcome to exactly one counter per
result. -/
lemma tally_foldl_partition (outs : List Outcome) :
    ∀ init : RunStats,
      (outs.foldl tally init).saved + (outs.foldl tally init).errors
          + (outs.foldl tally init).skipped.total
        = init.saved + init.errors + init.skipped.total + outs.length := by
  induction outs with
  | nil => intro init; simp
  | cons o rest ih =>
    intro init
    simp only [List.foldl_cons, List.length_cons]
    rw [ih (tally init o)]
    cases o with
    | saved => simp [tally]; omega
    | skipped r => simp [tally, SkipCounts.total_bump]; omega
    | error => simp [tally]; omega

/-! ## Shared concrete examples — orchestrator -/

/-- A well-formed candidate. -/
def exCand : Candidate := ⟨"t", "http://a", none, "s"⟩

/-- An environment whose candidate saves successfully. -/
def exEnvSaved : CandidateEnv :=
  ⟨.notFound, List.replicate 200 'c', [], List.replicate 10 's', .ok⟩

/-- An environment whose candidate is a pre-check duplicate. -/
def exEnvDup : CandidateEnv := ⟨.found, [], [], [], .ok⟩

/-- A concrete two-candidate batch. -/
def exBatch : List (Candidate × CandidateEnv) :=
  [(exCand, exEnvSaved), (exCand, exEnvDup)]

/-! ## Claim theorems — Orchestrator -/

/-- C1: every candidate of a run reaches exactly one terminal outcome
(`handleOneArticle` is total into the three-constructor `Outcome` type),
and the aggregated statistics partition the batch:
saved + errors + sum of per-reason skip counts equals the number of
candidates the Feed Sampler returned.  The second conjunct ties the
aggregation to the stats the run logs. -/
theorem c1_outcome_partition (batch : List (Candidate × CandidateEnv)) :
    (runStats (batchOutcomes batch)).saved
        + (runStats (batchOutcomes batch)).errors
        + (runStats (batchOutcomes batch)).skipped.total = batch.length
    ∧ (batch ≠ [] →
        (fetchAndStoreNews batch).logged
          = some (runStats (batchOutcomes batch))) := by
  constructor
  · have h := tally_foldl_partition (batchOutcomes batch) ⟨0, 0, SkipCounts.zero⟩
    simpa [runStats, batchOutcomes, SkipCounts.zero, SkipCounts.total] using h
  · intro h
    simp [fetchAndStoreNews, h]

/-- Witness for C1 at a concrete two-candidate batch. -/
theorem c1_witness :
    (runStats (batchOutcomes exBatch)).saved
        + (runStats (batchOutcomes exBatch)).errors
        + (runStats (batchOutcomes exBatch)).skipped.total = exBatch.length
    ∧ (fetchAndStoreNews exBatch).logged
        = some (runStats (batchOutcomes exBatch)) :=
  ⟨(c1_outcome_partition exBatch).1,
   (c1_outcome_partition exBatch).2 (by decide)⟩

/-- C2: a persistence failure carrying the Mongo duplicate-key code 11000
terminates the candidate as the skip reason duplicate_race, any other
persistence failure terminates it as error, and either way only that
candidate is affected: the outcome of every other position in the batch is
unchanged however one candidate's environment is replaced. -/
theorem c2_write_failure_isolated :
    (∀ (env : CandidateEnv) (a : Candidate) (code : Option Int),
        a.link ≠ "" → a.title ≠ "" → env.dupCheck = .notFound →
        MIN_CONTENT_LEN ≤ env.content.length → 10 ≤ env.summary.length →
        env.persist = .failed code →
        handleOneArticle env a
          = if code = some 11000 then .skipped .duplicate_race
            else .error)
    ∧ (∀ (batch : List (Candidate × CandidateEnv)) (i : Nat)
        (p : Candidate × CandidateEnv) (j : Nat), j ≠ i →
        (batchOutcomes (batch.set i p))[j]? = (batchOutcomes batch)[j]?) := by
  constructor
  · intro env a code hl ht hd hc hs hp
    have h1 : ¬(a.link = "" ∨ a.title = "") := by
      rintro (h | h) <;> simp_all
    have h2 : ¬ env.content.length < MIN_CONTENT_LEN := by omega
    have h3 : ¬ env.summary.length < 10 := by omega
    simp [handleOneArticle, h1, hd, h2, h3, hp]
  · intro batch i p j hj
    simp [batchOutcomes, List.getElem?_set_ne (Ne.symm hj)]

/-- Witness for C2: a duplicate-race write failure skips, a coded write
failure errors, and replacing the first candidate's environment leaves the
second outcome untouched. -/
theorem c2_witness :
    handleOneArticle ⟨.notFound, List.replicate 200 'c', [],
        List.replicate 10 's', .failed (some 11000)⟩ exCand
      = (if (some 11000 : Option Int) = some 11000
          then Outcome.skipped .duplicate_race else .error)
    ∧ (batchOutcomes (exBatch.set 0 (exCand, exEnvDup)))[1]?
        = (batchOutcomes exBatch)[1]? := by
  refine ⟨c2_write_failure_isolated.1 _ exCand (some 11000)
    (by decide) (by decide) rfl (by simp [MIN_CONTENT_LEN]) (by simp) rfl,
    c2_write_failure_isolated.2 exBatch 0 (exCand, exEnvDup) 1 (by decide)⟩

/-- C7 counterexample: `fetchAndStoreNews` never returns a RunStats
record — its JS return value is `undefined` on both paths, and on an empty
candidate list it produces only a warning, with no zero-valued stats ever
computed, logged, or returned. -/
theorem c7_counterexample :
    (fetchAndStoreNews exBatch).returned = none
    ∧ (fetchAndStoreNews []).returned = none
    ∧ (fetchAndStoreNews []).logged = none
    ∧ (fetchAndStoreNews []).warned = true := by decide

/-- C7 (amended): `run(mode)` always resolves with undefined rather than
returning a RunStats record; after processing a non-empty candidate list
it computes and logs RunStats{saved, errors, skippedByReason}; when the
Feed Sampler returns an empty candidate list the run ends immediately with
a warning alone. -/
theorem c7_run_logs_stats (batch : List (Candidate × CandidateEnv)) :
    (fetchAndStoreNews batch).returned = none
    ∧ (batch = [] →
        (fetchAndStoreNews batch).warned = true
          ∧ (fetchAndStoreNews batch).logged = none)
    ∧ (batch ≠ [] →
        (fetchAndStoreNews batch).warned = false
          ∧ (fetchAndStoreNews batch).logged
              = some (runStats (batchOutcomes batch))) := by
  cases batch with
  | nil => simp [fetchAndStoreNews]
  | cons a t => simp [fetchAndStoreNews]

/-- Witness for C7 (amended) at the concrete batch. -/
theorem c7_witness :
    (fetchAndStoreNews exBatch).warned = false
    ∧ (fetchAndStoreNews exBatch).logged
        = some (runStats (batchOutcomes exBatch)) :=
  (c7_run_logs_stats exBatch).2.2 (by decide)

/-- C8: in every reachable scheduler state of a run, at most CONCURRENCY
(= 5) candidates are in flight, and a resolved state has an empty queue
and no in-flight work — the pool drains completely before the run
completes. -/
theorem c8_pool_bound (n : Nat) (s : PoolState)
    (h : PoolReachable CONCURRENCY n s) :
    s.active ≤ CONCURRENCY
    ∧ (s.resolved = true → s.queue = 0 ∧ s.active = 0) := by
  induction h with
  | refl => simp [poolInit]
  | tail _ step ih =>
    cases step with
    | start hlt => exact ⟨hlt, by simp⟩
    | complete =>
      refine ⟨?_, by simp⟩
      have h1 := ih.1
      simp only [CONCURRENCY] at h1 ⊢
      omega
    | resolve => exact ⟨Nat.zero_le _, fun _ => ⟨rfl, rfl⟩⟩

/-- Witness for C8: a full one-candidate run
start → complete → resolve. -/
theorem c8_witness :
    (⟨0, 0, true⟩ : PoolState).active ≤ CONCURRENCY
    ∧ ((⟨0, 0, true⟩ : PoolState).resolved = true →
        (⟨0, 0, true⟩ : PoolState).queue = 0
          ∧ (⟨0, 0, true⟩ : PoolState).active = 0) := by
  refine c8_pool_bound 1 ⟨0, 0, true⟩ ?_
  have s1 : PoolStep CONCURRENCY ⟨1, 0, false⟩ ⟨0, 1, false⟩ :=
    PoolStep.start (by simp [CONCURRENCY])
  have s2 : PoolStep CONCURRENCY ⟨0, 1, false⟩ ⟨0, 0, false⟩ :=
    PoolStep.complete
  have s3 : PoolStep CONCURRENCY ⟨0, 0, false⟩ ⟨0, 0, true⟩ :=
    PoolStep.resolve
  exact Relation.ReflTransGen.tail
    (Relation.ReflTransGen.tail
      (Relation.ReflTransGen.tail Relation.ReflTransGen.refl s1) s2) s3

/-! ## Helper lemmas — sampling -/

/-- On a non-empty array the random pick is a take of the shuffled
array. -/
lemma pickRandomItems_of_ne_nil (shuffle : List FeedItem → List FeedItem)
    (arr : List FeedItem) (count : Nat) (h : arr ≠ []) :
    pickRandomItems shuffle arr count = (shuffle arr).take count := by
  simp [pickRandomItems, h]

/-- A take of a permutation of `arr` is drawn from `arr` without
replacement. -/
lemma take_shuffle_subperm (shuffle : List FeedItem → List FeedItem)
    (hs : ∀ l, (shuffle l).Perm l) (arr : List FeedItem) (count : Nat) :
    List.Subperm ((shuffle arr).take count) arr :=
  ((List.take_sublist count (shuffle arr)).subperm).trans (hs arr).subperm

/-! ## Shared concrete examples — sampler -/

/-- A plain feed item. -/
def exFeedItem : FeedItem :=
  ⟨some "t", .str "http://x", none, none, none, none, none⟩

/-- A 100-item feed. -/
def exItems : List FeedItem := List.replicate 100 exFeedItem

/-! ## Claim theorems — Feed Sampler -/

/-- C3: for a feed with at least 100 parsed items, Initial mode draws
exactly 10 items without replacement (a sub-permutation) from the
latest-100 slice, and Recurring mode draws `3 + coin` items — 3 or 4,
decided by the uniform random bit `coin = ⌊2·Math.random()⌋` — without
replacement from the latest-50 slice; the returned candidates are exactly
the normalizations of the drawn items. -/
theorem c3_sampling_counts
    (site : String → String) (shuffle : List FeedItem → List FeedItem)
    (coin : Fin 2) (items : List FeedItem) (url : String)
    (hs : ∀ l, (shuffle l).Perm l) (h100 : 100 ≤ items.length) :
    (∃ picked,
        List.Subperm picked (items.take INITIAL_LIMIT)
        ∧ picked.length = INITIAL_PICK
        ∧ fetchOne site shuffle coin items url .initial
            = picked.map fun it => normalizeItem site it url)
    ∧ (∃ picked,
        List.Subperm picked (items.take RECUR_LIMIT)
        ∧ picked.length = coin.val + (RECUR_PICK - 1)
        ∧ (coin.val + (RECUR_PICK - 1) = 3 ∨ coin.val + (RECUR_PICK - 1) = 4)
        ∧ fetchOne site shuffle coin items url .recurring
            = picked.map fun it => normalizeItem site it url) := by
  have hlenI : (items.take INITIAL_LIMIT).length = 100 := by
    simp [INITIAL_LIMIT]
    omega
  have hlenR : (items.take RECUR_LIMIT).length = 50 := by
    simp [RECUR_LIMIT]
    omega
  have hneI : items.take INITIAL_LIMIT ≠ [] := by
    intro h
    rw [h] at hlenI
    simp at hlenI
  have hneR : items.take RECUR_LIMIT ≠ [] := by
    intro h
    rw [h] at hlenR
    simp at hlenR
  constructor
  · refine ⟨pickRandomItems shuffle (items.take INITIAL_LIMIT) INITIAL_PICK,
      ?_, ?_, rfl⟩
    · rw [pickRandomItems_of_ne_nil _ _ _ hneI]
      exact take_shuffle_subperm shuffle hs _ _
    · rw [pickRandomItems_of_ne_nil _ _ _ hneI]
      rw [List.length_take, (hs _).length_eq, hlenI]
      rfl
  · refine ⟨pickRandomItems shuffle (items.take RECUR_LIMIT)
        (coin.val + (RECUR_PICK - 1)), ?_, ?_, ?_, rfl⟩
    · rw [pickRandomItems_of_ne_nil _ _ _ hneR]
      exact take_shuffle_subperm shuffle hs _ _
    · rw [pickRandomItems_of_ne_nil _ _ _ hneR]
      rw [List.length_take, (hs _).length_eq, hlenR]
      have := coin.isLt
      simp [RECUR_PICK]
      omega
    · have := coin.isLt
      simp [RECUR_PICK]
      omega

/-- Witness for C3 (Initial-mode conjunct) on a concrete 100-item feed
with the identity permutation. -/
theorem c3_witness :
    ∃ picked,
      List.Subperm picked (exItems.take INITIAL_LIMIT)
      ∧ picked.length = INITIAL_PICK
      ∧ fetchOne (fun _ => "S") id (0 : Fin 2) exItems "u" .initial
          = picked.map fun it => normalizeItem (fun _ => "S") it "u" :=
  (c3_sampling_counts (fun _ => "S") id (0 : Fin 2) exItems "u"
    (fun l => List.Perm.refl l) (by simp [exItems])).1

/-! ## Helper lemmas — dedup and descending sort -/

/-- Totality of the comparator: when `a` is not strictly newer than `b`,
`b` is at least as new as `a`. -/
lemma tsGe_of_not_tsGt (a b : Candidate) (h : tsGt a b = false) :
    tsGe b a = true := by
  cases ha : a.pubDate <;> cases hb : b.pubDate <;>
    simp [tsGt, tsGe, ha, hb] at * <;> omega

/-- Strict comparison implies the non-strict one. -/
lemma tsGe_of_tsGt (a b : Candidate) (h : tsGt a b = true) :
    tsGe a b = true := by
  cases ha : a.pubDate <;> cases hb : b.pubDate <;>
    simp [tsGt, tsGe, ha, hb] at * <;> omega

/-- Transitivity of the comparator. -/
lemma tsGe_trans (a b c : Candidate) (h1 : tsGe a b = true)
    (h2 : tsGe b c = true) : tsGe a c = true := by
  cases ha : a.pubDate <;> cases hb : b.pubDate <;> cases hc : c.pubDate <;>
    simp [tsGe, ha, hb, hc] at * <;> omega

/-- Insertion yields a permutation of the cons. -/
lemma insertDesc_perm (a : Candidate) (l : List Candidate) :
    (insertDesc a l).Perm (a :: l) := by
  induction l with
  | nil => simp [insertDesc]
  | cons b t ih =>
    simp only [insertDesc]
    by_cases h : tsGt a b
    · simp [h]
    · rw [if_neg h]
      exact (ih.cons b).trans (List.Perm.swap a b t)

/-- Membership after insertion. -/
lemma mem_insertDesc {x a : Candidate} {l : List Candidate} :
    x ∈ insertDesc a l ↔ x = a ∨ x ∈ l := by
  simpa using (insertDesc_perm a l).mem_iff

/-- Insertion preserves descending sortedness. -/
lemma insertDesc_sorted (a : Candidate) (l : List Candidate)
    (h : l.Pairwise (fun x y => tsGe x y = true)) :
    (insertDesc a l).Pairwise (fun x y => tsGe x y = true) := by
  induction l with
  | nil => simp [insertDesc]
  | cons b t ih =>
    rcases List.pairwise_cons.mp h with ⟨hb, ht⟩
    simp only [insertDesc]
    by_cases hgt : tsGt a b
    · rw [if_pos hgt]
      refine List.Pairwise.cons ?_ h
      intro y hy
      rcases List.mem_cons.mp hy with rfl | hy'
      · exact tsGe_of_tsGt a y hgt
      · exact tsGe_trans a b y (tsGe_of_tsGt a b hgt) (hb y hy')
    · rw [if_neg hgt]
      refine List.Pairwise.cons ?_ (ih ht)
      intro y hy
      rcases mem_insertDesc.mp hy with rfl | hy'
      · exact tsGe_of_not_tsGt y b (by simpa using hgt)
      · exact hb y hy'

/-- The left fold of insertions permutes the accumulator and input. -/
lemma foldl_insertDesc_perm :
    ∀ (l acc : List Candidate),
      (l.foldl (fun acc a => insertDesc a acc) acc).Perm (acc ++ l) := by
  intro l
  induction l with
  | nil => intro acc; simp
  | cons a t ih =>
    intro acc
    simp only [List.foldl_cons]
    refine (ih (insertDesc a acc)).trans ?_
    have h1 : (insertDesc a acc ++ t).Perm ((a :: acc) ++ t) :=
      (insertDesc_perm a acc).append_right t
    exact h1.trans List.perm_middle.symm

/-- The sort is a permutation. -/
lemma sortDesc_perm (l : List Candidate) : (sortDesc l).Perm l := by
  simpa [sortDesc] using foldl_insertDesc_perm l []

/-- The left fold of insertions preserves sortedness of the
accumulator. -/
lemma foldl_insertDesc_sorted :
    ∀ (l acc : List Candidate),
      acc.Pairwise (fun x y => tsGe x y = true) →
      (l.foldl (fun acc a => insertDesc a acc) acc).Pairwise
        (fun x y => tsGe x y = true) := by
  intro l
  induction l with
  | nil => intro acc h; simpa using h
  | cons a t ih =>
    intro acc h
    simp only [List.foldl_cons]
    exact ih (insertDesc a acc) (insertDesc_sorted a acc h)

/-- The sort output is descending. -/
lemma sortDesc_sorted (l : List Candidate) :
    (sortDesc l).Pairwise (fun x y => tsGe x y = true) :=
  foldl_insertDesc_sorted l [] (by simp)

/-- Dedup invariant: every survivor's key is new with respect to `seen`,
and the survivor is the first input element bearing its key. -/
lemma dedupGo_spec :
    ∀ (l : List Candidate) (seen : List String) (c : Candidate),
      c ∈ dedupGo seen l →
      seen.contains (dedupKey c) = false
      ∧ l.find? (fun x => dedupKey x == dedupKey c) = some c := by
  intro l
  induction l with
  | nil => intro seen c hc; simp [dedupGo] at hc
  | cons a t ih =>
    intro seen c hc
    simp only [dedupGo] at hc
    by_cases hs : seen.contains (dedupKey a)
    · rw [if_pos hs] at hc
      obtain ⟨h1, h2⟩ := ih seen c hc
      have hne : (dedupKey a == dedupKey c) = false := by
        by_contra h
        rw [Bool.not_eq_false, beq_iff_eq] at h
        rw [h] at hs
        rw [hs] at h1
        cases h1
      refine ⟨h1, ?_⟩
      simp [List.find?_cons, hne, h2]
    · rw [if_neg hs] at hc
      rcases List.mem_cons.mp hc with rfl | hc'
      · exact ⟨by simpa using hs, by simp [List.find?_cons]⟩
      · obtain ⟨h1, h2⟩ := ih _ c hc'
        simp only [List.contains_cons, Bool.or_eq_false_iff] at h1
        obtain ⟨hka, hseen⟩ := h1
        have hne : (dedupKey a == dedupKey c) = false := by
          rw [beq_eq_false_iff_ne] at hka ⊢
          exact fun h => hka h.symm
        refine ⟨hseen, ?_⟩
        simp [List.find?_cons, hne, h2]

/-- The dedup output has pairwise-distinct keys. -/
lemma dedupGo_pairwise :
    ∀ (l : List Candidate) (seen : List String),
      (dedupGo seen l).Pairwise (fun a b => dedupKey a ≠ dedupKey b) := by
  intro l
  induction l with
  | nil => intro seen; simp [dedupGo]
  | cons a t ih =>
    intro seen
    simp only [dedupGo]
    by_cases hs : seen.contains (dedupKey a)
    · rw [if_pos hs]; exact ih seen
    · rw [if_neg hs]
      refine List.Pairwise.cons ?_ (ih _)
      intro b hb
      have h1 := (dedupGo_spec t _ b hb).1
      simp only [List.contains_cons, Bool.or_eq_false_iff] at h1
      have := h1.1
      rw [beq_eq_false_iff_ne] at this
      exact fun h => this h.symm

/-- A concrete three-feed sampler result (one feed failed, one link
repeated). -/
def exPerFeed : List (Option (List Candidate)) :=
  [some [exCand], none, some [exCand]]

/-- C5: the Feed Sampler output has no two candidates sharing a dedup key
(link, or title+source when the link is absent), is sorted descending by
publication timestamp with absent timestamps as earliest-possible, and
every returned candidate is the first occurrence of its key in the
combined pre-dedup list. -/
theorem c5_dedup_sort (perFeed : List (Option (List Candidate))) :
    (fetchRSSArticles perFeed).Pairwise (fun a b => dedupKey a ≠ dedupKey b)
    ∧ (fetchRSSArticles perFeed).Pairwise (fun a b => tsGe a b = true)
    ∧ (∀ c ∈ fetchRSSArticles perFeed,
        (allArticles perFeed).find? (fun x => dedupKey x == dedupKey c)
          = some c) := by
  have hperm : (fetchRSSArticles perFeed).Perm
      (dedupByKey (allArticles perFeed)) :=
    sortDesc_perm (dedupByKey (allArticles perFeed))
  have hsym : Symmetric (fun a b : Candidate => dedupKey a ≠ dedupKey b) :=
    fun _ _ h => Ne.symm h
  refine ⟨?_, ?_, ?_⟩
  · exact (hperm.pairwise_iff fun h => hsym h).mpr
      (dedupGo_pairwise (allArticles perFeed) [])
  · exact sortDesc_sorted (dedupByKey (allArticles perFeed))
  · intro c hc
    exact (dedupGo_spec (allArticles perFeed) [] c (hperm.mem_iff.mp hc)).2

/-- Witness for C5 (first-occurrence conjunct) on a concrete three-feed
batch with a repeated link. -/
theorem c5_witness :
    (allArticles exPerFeed).find?
        (fun x => dedupKey x == dedupKey exCand) = some exCand :=
  (c5_dedup_sort exPerFeed).2.2 exCand (by decide)

/-! ## Helper lemmas — selector pass -/

/-- The trimmed text of the first selector whose trimmed text exceeds 200
characters, in priority order. -/
def firstBig (p : Page) : List String → Option (List Char)
  | [] => none
  | s :: rest =>
    match p.bySel.lookup s with
    | some t =>
      if (jsTrim t).length > 200 then some (jsTrim t) else firstBig p rest
    | none => firstBig p rest

/-- The trimmed texts of all matching selectors, in priority order. -/
def matchTexts (p : Page) (sels : List String) : List (List Char) :=
  sels.filterMap fun s => (p.bySel.lookup s).map jsTrim

/-- A first-big text really exceeds the threshold. -/
lemma firstBig_big (p : Page) :
    ∀ sels t, firstBig p sels = some t → 200 < t.length := by
  intro sels
  induction sels with
  | nil => intro t h; simp [firstBig] at h
  | cons s rest ih =>
    intro t h
    simp only [firstBig] at h
    cases hl : p.bySel.lookup s with
    | none =>
      try rw [hl] at h
      try dsimp only at h
      exact ih t h
    | some u =>
      try rw [hl] at h
      try dsimp only at h
      by_cases hbig : (jsTrim u).length > 200
      · rw [if_pos hbig] at h
        cases h
        omega
      · rw [if_neg hbig] at h
        exact ih t h

/-- If some selector exceeds the threshold, the loop returns the first
such text (whatever text was accumulated before). -/
lemma selectorGo_of_firstBig (p : Page) :
    ∀ sels acc t, firstBig p sels = some t → selectorGo p sels acc = t := by
  intro sels
  induction sels with
  | nil => intro acc t h; simp [firstBig] at h
  | cons s rest ih =>
    intro acc t h
    simp only [firstBig] at h
    simp only [selectorGo]
    cases hl : p.bySel.lookup s with
    | none =>
      try rw [hl] at h
      try rw [hl]
      try dsimp only at h
      try dsimp only
      exact ih acc t h
    | some u =>
      try rw [hl] at h
      try rw [hl]
      try dsimp only at h
      try dsimp only
      by_cases hbig : (jsTrim u).length > 200
      · rw [if_pos hbig] at h ⊢
        cases h
        rfl
      · rw [if_neg hbig] at h ⊢
        exact ih (jsTrim u) t h

/-- If no selector exceeds the threshold, the loop keeps the text of the
last matching selector (or the accumulator when nothing matched). -/
lemma selectorGo_of_no_big (p : Page) :
    ∀ sels acc, firstBig p sels = none →
      selectorGo p sels acc = (matchTexts p sels).getLastD acc := by
  intro sels
  induction sels with
  | nil => intro acc _; simp [selectorGo, matchTexts]
  | cons s rest ih =>
    intro acc h
    simp only [firstBig] at h
    simp only [selectorGo, matchTexts, List.filterMap_cons]
    cases hl : p.bySel.lookup s with
    | none =>
      try rw [hl] at h
      try rw [hl]
      try dsimp only at h
      try dsimp only
      exact ih acc h
    | some u =>
      try rw [hl] at h
      try rw [hl]
      try dsimp only at h
      try dsimp only
      by_cases hbig : (jsTrim u).length > 200
      · rw [if_pos hbig] at h
        cases h
      · rw [if_neg hbig] at h ⊢
        simp only [Option.map_some']
        try dsimp only
        rw [List.getLastD_cons]
        exact ih (jsTrim u) h

/-- A concrete page: one matching selector with exactly 200 characters of
text, and two substantial paragraphs. -/
def exPage : Page :=
  ⟨[("article", List.replicate 200 'a')],
   [List.replicate 60 'b', List.replicate 60 'b'], none, none, none⟩

/-! ## Claim theorems — Content Extractor -/

/-- C6 counterexample: on a page whose only matching selector carries
exactly 200 characters of text, no selector yields text exceeding 200
characters, yet the extractor keeps the selector text and never takes the
paragraph fallback — contradicting the claim that the fallback is used
whenever no selector exceeds 200 characters. -/
theorem c6_counterexample :
    firstBig exPage knownSelectors = none
    ∧ extractText exPage = List.replicate 200 'a'
    ∧ jsTrim (collapseWs (boilerStrip (fallbackParas exPage)))
        = List.replicate 60 'b' ++ ' ' :: List.replicate 60 'b'
    ∧ extractText exPage
        ≠ jsTrim (collapseWs (boilerStrip (fallbackParas exPage))) := by
  decide

/-- C6 (amended): the extractor returns, after boilerplate cleanup, the
text of the first selector whose trimmed text exceeds 200 characters; when
no selector exceeds 200 characters, the trimmed text of the last matching
selector is retained and the paragraph fallback is used only if that
retained text is empty or shorter than 200 characters — a retained text of
exactly 200 characters is kept without the fallback; and extracted content
under 200 characters is marked short_content downstream. -/
theorem c6_extract_layering (p : Page) :
    (∀ t, firstBig p knownSelectors = some t →
        extractText p = jsTrim (collapseWs (boilerStrip t)))
    ∧ (firstBig p knownSelectors = none →
        ((matchTexts p knownSelectors).getLastD []).length < 200 →
          extractText p
            = jsTrim (collapseWs (boilerStrip (fallbackParas p))))
    ∧ (firstBig p knownSelectors = none →
        200 ≤ ((matchTexts p knownSelectors).getLastD []).length →
          extractText p = jsTrim (collapseWs (boilerStrip
            ((matchTexts p knownSelectors).getLastD []))))
    ∧ (∀ (env : CandidateEnv) (a : Candidate),
        a.link ≠ "" → a.title ≠ "" → env.dupCheck = .notFound →
        env.content.length < MIN_CONTENT_LEN →
        handleOneArticle env a = .skipped .short_content) := by
  refine ⟨?_, ?_, ?_, ?_⟩
  · intro t h
    have hbig := firstBig_big p knownSelectors t h
    have hcond : ¬(t = [] ∨ t.length < 200) := by
      rintro (rfl | hlt)
      · simp at hbig
      · omega
    simp only [extractText, selectorGo_of_firstBig p knownSelectors [] t h,
      if_neg hcond]
  · intro h hlen
    have hsel := selectorGo_of_no_big p knownSelectors [] h
    simp only [extractText, hsel, if_pos (Or.inr hlen)]
  · intro h hlen
    have hsel := selectorGo_of_no_big p knownSelectors [] h
    have hcond : ¬((matchTexts p knownSelectors).getLastD [] = []
        ∨ ((matchTexts p knownSelectors).getLastD []).length < 200) := by
      rintro (heq | hlt)
      · rw [heq] at hlen
        simp at hlen
      · omega
    simp only [extractText, hsel, if_neg hcond]
  · intro env a hl ht hd hc
    have h1 : ¬(a.link = "" ∨ a.title = "") := by
      rintro (h | h) <;> simp_all
    simp [handleOneArticle, h1, hd, hc]

/-- Witness for C6 (amended) at the concrete exactly-200-character
page. -/
theorem c6_witness :
    extractText exPage = jsTrim (collapseWs (boilerStrip
      ((matchTexts exPage knownSelectors).getLastD []))) :=
  (c6_extract_layering exPage).2.2.1 (by decide) (by decide)

end NewsInKB
